import Mathlib

/-
Verification of the broker order-lifecycle core (src/broker/app) against its
natural-language specification.

Shallow embedding conventions:
  * Python floats are modelled as exact rationals (ℚ); `round(x, 6)` is modelled
    as round-half-to-even on `x * 10^6` (CPython's rounding mode on ties).
  * Python ints are ℤ, timestamps are ℕ tick counters supplied by the caller.
  * Python dicts (`store.orders`, `pending_conditional_orders`, `positions`) are
    insertion-ordered association lists; `upsert` mirrors dict assignment
    (update in place if the key exists, append otherwise) and `alookup` mirrors
    `dict.get`.
  * In the source, `pending_conditional_orders` stores the same `OrderOut`
    objects that `store.orders` holds (aliasing).  The model stores the order
    value in both maps and writes mutations back to both where the source's
    aliasing would make them visible.
  * Presentational payloads (order-book snapshot dicts) are carried as opaque
    strings; they are only appended, never inspected.
-/

namespace Broker

inductive Side where
  | BUY
  | SELL
deriving DecidableEq

inductive OrderType where
  | MARKET
  | LIMIT
  | STOP
  | STOP_LIMIT
  | TRAILING_STOP
  | TRAILING_STOP_LIMIT
  | OCO
  | BRACKET
deriving DecidableEq

inductive TimeInForce where
  | DAY
  | IOC
  | FOK
  | GTC
  | GTD
deriving DecidableEq

inductive Status where
  | NEW
  | PARTIAL
  | FILLED
  | REJECTED
  | CANCELED
  | PENDING
  | TRIGGERED
  | STOP_PENDING
deriving DecidableEq

/-- One entry of `OrderOut.execution_log` (models/main.py `exec_report`). -/
structure ExecLogEntry where
  timestamp : ℕ
  price : ℚ
  qty : ℤ
  venue : String
deriving DecidableEq

/-- Model of `OrderOut` (models.py).  Field defaults follow the pydantic
defaults (`status = NEW`, `filled_qty = 0`, `leaves_qty = 0`, `avg_price = None`,
empty logs). -/
structure Order where
  id : String
  symbol : String
  side : Side
  order_type : OrderType
  qty : ℤ
  limit_price : Option ℚ := none
  stop_price : Option ℚ := none
  trailing_percent : Option ℚ := none
  trailing_amount : Option ℚ := none
  tif : TimeInForce := TimeInForce.DAY
  gtd_date : Option String := none
  profit_target : Option ℚ := none
  stop_loss : Option ℚ := none
  parent_order_id : Option String := none
  linked_order_id : Option String := none
  notes : Option String := none
  status : Status := Status.NEW
  filled_qty : ℤ := 0
  leaves_qty : ℤ := 0
  avg_price : Option ℚ := none
  message : Option String := none
  created_at : ℕ := 0
  triggered_at : Option ℕ := none
  last_modified : ℕ := 0
  execution_log : List ExecLogEntry := []
  order_book_snapshots : List String := []
deriving DecidableEq

/-- Model of `ExecIn` (models.py): an execution report from the venue. -/
structure ExecIn where
  order_id : String
  venue : String
  price : ℚ
  qty : ℤ
  final : Bool := false
  status : Status
  message : Option String := none
  execution_time : ℕ := 0
  order_book_snapshot : Option String := none
deriving DecidableEq

/-- Association-list lookup, mirroring Python `dict.get`. -/
def alookup {α : Type} : List (String × α) → String → Option α
  | [], _ => none
  | (k, v) :: rest, key => if k = key then some v else alookup rest key

/-- Association-list store, mirroring Python `dict[key] = value`: replace in
place when the key exists (dicts keep the original insertion position),
append otherwise. -/
def upsert {α : Type} : List (String × α) → String → α → List (String × α)
  | [], key, v => [(key, v)]
  | (k, w) :: rest, key, v =>
      if k = key then (key, v) :: rest else (k, w) :: upsert rest key v

/-- Round half to even of a rational, the tie-breaking CPython `round` uses. -/
def roundHalfEven (x : ℚ) : ℤ :=
  if Int.fract x < 1/2 then ⌊x⌋
  else if (1 : ℚ)/2 < Int.fract x then ⌊x⌋ + 1
  else if ⌊x⌋ % 2 = 0 then ⌊x⌋ else ⌊x⌋ + 1

/-- Model of Python `round(x, 6)` on the rational idealisation of floats. -/
def round6 (x : ℚ) : ℚ :=
  (roundHalfEven (x * 1000000) : ℚ) / 1000000

/-- The order mutation performed inside the lock in `exec_report`
(main.py lines 976-1005): fill accumulation, leaves floor, weighted average
price with 6-decimal rounding, status/message/timestamp updates and the
append-only logs. -/
def applyExec (o : Order) (er : ExecIn) (now : ℕ) : Order :=
  let filled := o.filled_qty + er.qty
  let leaves := max 0 (o.qty - filled)
  let avg : Option ℚ :=
    match o.avg_price with
    | none => some er.price
    | some a =>
        some (round6 ((a * ((filled : ℚ) - (er.qty : ℚ)) + er.price * (er.qty : ℚ)) / (filled : ℚ)))
  { o with
    filled_qty := filled
    leaves_qty := leaves
    avg_price := avg
    status := er.status
    message := er.message
    last_modified := now
    execution_log := o.execution_log ++
      [{ timestamp := er.execution_time, price := er.price, qty := er.qty, venue := er.venue }]
    order_book_snapshots := o.order_book_snapshots ++ er.order_book_snapshot.toList }

/-- Folding a sequence of execution reports into an order. -/
def applyExecs (o : Order) (ers : List ExecIn) (now : ℕ) : Order :=
  ers.foldl (fun acc er => applyExec acc er now) o

/-- The exact (unrounded) average/filled recurrence underlying `exec_report`:
state is (stored average, filled quantity), exactly the code's update with
`round6` removed.  Used to compare the code's rounded recurrence with the
quantity-weighted mean. -/
def execAvgExactStep (acc : Option ℚ × ℤ) (er : ExecIn) : Option ℚ × ℤ :=
  let filled := acc.2 + er.qty
  match acc.1 with
  | none => (some er.price, filled)
  | some a => (some ((a * (acc.2 : ℚ) + er.price * (er.qty : ℚ)) / (filled : ℚ)), filled)

/-- Model of `OrderIn` (models.py): the client order request.  The pydantic
validators (`qty > 0`, optional prices `> 0`) are carried as hypotheses where
claims need them. -/
structure OrderIn where
  symbol : String
  side : Side
  order_type : OrderType
  qty : ℤ
  limit_price : Option ℚ := none
  stop_price : Option ℚ := none
  trailing_percent : Option ℚ := none
  trailing_amount : Option ℚ := none
  tif : TimeInForce := TimeInForce.DAY
  gtd_date : Option String := none
  profit_target : Option ℚ := none
  stop_loss : Option ℚ := none
  parent_order_id : Option String := none
  linked_order_id : Option String := none
  notes : Option String := none
deriving DecidableEq

/-- The risk section of the config (risk.py reads
`cfg["risk"]["max_notional_per_order"]` defaulting to 250000 and
`cfg["risk"]["collars_pct"]` defaulting to 0.10). -/
structure RiskCfg where
  max_notional_per_order : ℚ := 250000
  collars_pct : ℚ := 1/10
deriving DecidableEq

/-- The hardcoded reference price used by the Risk Gate and the Conditional
Order Monitor (`last = 100.0` in risk.py, `current_price = 100.0` in
main.py `monitor_conditional_orders`). -/
def lastTradeRef : ℚ := 100

/-- Model of `within_collars` (risk.py lines 28-31). -/
def within_collars (last_trade price pct : ℚ) : Bool :=
  if last_trade ≤ 0 then true else |price - last_trade| ≤ last_trade * pct

/-- Outcome of the risk gate.  The source returns `(False, reason_string)`;
the rejection reason string interpolates exactly the computed notional and the
configured cap ("Max notional exceeded: {notional} > {cap}"), so the model
carries those two numbers structurally in the rejection value. -/
inductive RiskDecision where
  | allowed
  | maxNotionalExceeded (notional cap : ℚ)
  | outsideCollars (pct last : ℚ)
deriving DecidableEq

/-- Model of the decision logic of `pretrade_checks` (risk.py lines 33-78).
The fire-and-forget notification call has no effect on the decision and is
omitted.  `order.limit_price or last` is `Option.getD` (a validated
limit_price is `> 0`, never falsy). -/
def pretrade_checks (order : OrderIn) (cfg : RiskCfg) : RiskDecision :=
  let last := lastTradeRef
  let notional := (order.limit_price.getD last) * (order.qty : ℚ)
  if cfg.max_notional_per_order < notional then
    RiskDecision.maxNotionalExceeded notional cfg.max_notional_per_order
  else
    let ref_price := order.limit_price.getD last
    if ¬ within_collars last ref_price cfg.collars_pct then
      RiskDecision.outsideCollars cfg.collars_pct last
    else
      RiskDecision.allowed

/-- The mutable broker state the claims touch: `store.orders` and the
`pending_conditional_orders` index (both insertion-ordered dicts). -/
structure BrokerState where
  orders : List (String × Order)
  pending_conditional_orders : List (String × Order)
deriving DecidableEq

/-- `OrderOut(id=oid, **order_in.model_dump())` followed by
`order.leaves_qty = order.qty` (main.py lines 631-633). -/
def mkOrderOut (oin : OrderIn) (oid : String) (now : ℕ) : Order :=
  { id := oid, symbol := oin.symbol, side := oin.side, order_type := oin.order_type,
    qty := oin.qty, limit_price := oin.limit_price, stop_price := oin.stop_price,
    trailing_percent := oin.trailing_percent, trailing_amount := oin.trailing_amount,
    tif := oin.tif, gtd_date := oin.gtd_date, profit_target := oin.profit_target,
    stop_loss := oin.stop_loss, parent_order_id := oin.parent_order_id,
    linked_order_id := oin.linked_order_id, notes := oin.notes,
    leaves_qty := oin.qty, created_at := now, last_modified := now }

/-- Model of `handle_oco_order` (main.py lines 677-711): two child orders, a
LIMIT and a STOP, each with `linked_order_id` pointing at the parent id, both
stored in the ledger.  Child fields not passed to the constructor keep their
pydantic defaults (in particular `leaves_qty = 0`).  Routing both children is
an external side effect with no ledger mutation on the success path. -/
def handle_oco_order (st : BrokerState) (order : Order) (id1 id2 : String) (now : ℕ) :
    BrokerState :=
  let order1 : Order :=
    { id := id1, symbol := order.symbol, side := order.side,
      order_type := OrderType.LIMIT, qty := order.qty, limit_price := order.limit_price,
      tif := order.tif, linked_order_id := some order.id,
      created_at := now, last_modified := now }
  let order2 : Order :=
    { id := id2, symbol := order.symbol, side := order.side,
      order_type := OrderType.STOP, qty := order.qty, stop_price := order.stop_price,
      tif := order.tif, linked_order_id := some order.id,
      created_at := now, last_modified := now }
  { st with orders := upsert (upsert st.orders id1 order1) id2 order2 }

/-- Model of `handle_bracket_order` (main.py lines 713-759): entry MARKET
child, opposite-side LIMIT profit target and STOP stop loss, all GTC with
`parent_order_id` set; only the entry order is routed. -/
def handle_bracket_order (st : BrokerState) (order : Order) (id1 id2 id3 : String) (now : ℕ) :
    BrokerState :=
  let opposite : Side := if order.side = Side.BUY then Side.SELL else Side.BUY
  let main_order : Order :=
    { id := id1, symbol := order.symbol, side := order.side,
      order_type := OrderType.MARKET, qty := order.qty, tif := order.tif,
      parent_order_id := some order.id, created_at := now, last_modified := now }
  let profit_order : Order :=
    { id := id2, symbol := order.symbol, side := opposite,
      order_type := OrderType.LIMIT, qty := order.qty, limit_price := order.profit_target,
      tif := TimeInForce.GTC, parent_order_id := some order.id,
      created_at := now, last_modified := now }
  let stop_order : Order :=
    { id := id3, symbol := order.symbol, side := opposite,
      order_type := OrderType.STOP, qty := order.qty, stop_price := order.stop_loss,
      tif := TimeInForce.GTC, parent_order_id := some order.id,
      created_at := now, last_modified := now }
  { st with orders := upsert (upsert (upsert st.orders id1 main_order) id2 profit_order) id3 stop_order }

/-- The four conditional order types `place_order` parks in
`pending_conditional_orders` (main.py lines 639-653). -/
def isConditionalType : OrderType → Bool
  | OrderType.STOP => true
  | OrderType.STOP_LIMIT => true
  | OrderType.TRAILING_STOP => true
  | OrderType.TRAILING_STOP_LIMIT => true
  | _ => false

inductive PlaceResult where
  | rejected (d : RiskDecision)
  | placed (o : Order)
deriving DecidableEq

/-- Model of the `place_order` handler body (main.py lines 622-670) with the
risk gate consulted as intended.  NOTE: the source calls the async
`pretrade_checks` WITHOUT `await` on line 627, so the running service never
reaches this logic (settled under the risk-gate claim via
`place_order_request` below); this definition models lines 627-670 with the
coroutine awaited, which is what the downstream OCO/conditional claims are
about.  `oid` is the freshly generated order id and `cid1 cid2 cid3` the ids
the composite handlers would generate. -/
def place_order (st : BrokerState) (oin : OrderIn) (cfg : RiskCfg)
    (oid cid1 cid2 cid3 : String) (now : ℕ) : BrokerState × PlaceResult :=
  match pretrade_checks oin cfg with
  | RiskDecision.allowed =>
      let o := mkOrderOut oin oid now
      let st1 : BrokerState := { st with orders := upsert st.orders oid o }
      if isConditionalType oin.order_type then
        let o' := { o with status := Status.STOP_PENDING }
        ({ orders := upsert st1.orders oid o',
           pending_conditional_orders := st1.pending_conditional_orders ++ [(oid, o')] },
         PlaceResult.placed o')
      else if oin.order_type = OrderType.OCO then
        (handle_oco_order st1 o cid1 cid2 now, PlaceResult.placed o)
      else if oin.order_type = OrderType.BRACKET then
        (handle_bracket_order st1 o cid1 cid2 cid3 now, PlaceResult.placed o)
      else
        (st1, PlaceResult.placed o)
  | d => (st, PlaceResult.rejected d)

/-- Model of the `place_order` handler as it actually executes: line 627 reads
`ok, reason = pretrade_checks(order_in, store.cfg)` where `pretrade_checks` is
an `async def`, so the right-hand side is a coroutine object and unpacking it
raises `TypeError: cannot unpack non-iterable coroutine object`, which the
handler's generic `except Exception` turns into a 500 response before any
state is touched. -/
def place_order_request (st : BrokerState) (_oin : OrderIn) (_cfg : RiskCfg) :
    BrokerState × Except String Order :=
  (st, Except.error "TypeError: cannot unpack non-iterable coroutine object")

inductive CancelResult where
  | notFound
  | invalidState (s : Status)
  | ok
deriving DecidableEq

/-- `status in [Status.FILLED, Status.CANCELED, Status.REJECTED]`. -/
def terminalStatus : Status → Bool
  | Status.FILLED => true
  | Status.CANCELED => true
  | Status.REJECTED => true
  | _ => false

/-- The "# Cancel linked orders for OCO" block of `cancel_order`
(main.py lines 781-787): follow `linked_order_id` and, when the linked order
exists and is not terminal, mark it CANCELED as well. -/
def cascadeLinked (orders1 : List (String × Order)) (link : Option String) (now : ℕ) :
    List (String × Order) :=
  match link with
  | none => orders1
  | some lid =>
      match alookup orders1 lid with
      | none => orders1
      | some linked =>
          if terminalStatus linked.status then orders1
          else upsert orders1 lid
            { linked with
              status := Status.CANCELED,
              message := some "Canceled due to OCO",
              last_modified := now }

/-- Model of `cancel_order` (main.py lines 761-797): 404 on unknown id, 400 on
a terminal status, otherwise mark CANCELED with message and timestamp, drop
the id from the pending-conditional index, and cascade the cancellation to
`linked_order_id` when present and not terminal. -/
def cancel_order (st : BrokerState) (order_id : String) (now : ℕ) :
    BrokerState × CancelResult :=
  match alookup st.orders order_id with
  | none => (st, CancelResult.notFound)
  | some order =>
      if terminalStatus order.status then
        (st, CancelResult.invalidState order.status)
      else
        let order' := { order with
                        status := Status.CANCELED,
                        message := some "Canceled by user",
                        last_modified := now }
        let orders1 := upsert st.orders order_id order'
        let pending1 := st.pending_conditional_orders.filter (fun p => p.1 ≠ order_id)
        ({ orders := cascadeLinked orders1 order.linked_order_id now,
           pending_conditional_orders := pending1 }, CancelResult.ok)

/-- The trigger predicate evaluated by `check_conditional_orders`
(main.py lines 183-204), exactly as written in the source: branches exist for
STOP, STOP_LIMIT and TRAILING_STOP only; TRAILING_STOP_LIMIT (and every other
type) falls through untriggered.  A STOP/STOP_LIMIT order in the pending index
always carries a stop price in practice; the `none` branch (where CPython
would raise comparing against `None`) is unreachable for the claims and
modelled as no trigger. -/
def conditionalTriggered (order : Order) (current_price : ℚ) : Bool :=
  match order.order_type with
  | OrderType.STOP =>
      match order.stop_price with
      | some sp =>
          if order.side = Side.BUY then sp ≤ current_price
          else if order.side = Side.SELL then current_price ≤ sp
          else false
      | none => false
  | OrderType.STOP_LIMIT =>
      match order.stop_price with
      | some sp =>
          if order.side = Side.BUY then sp ≤ current_price
          else if order.side = Side.SELL then current_price ≤ sp
          else false
      | none => false
  | OrderType.TRAILING_STOP =>
      match order.trailing_percent, order.stop_price with
      | some tp, some sp =>
          let trailing_amount := current_price * (tp / 100)
          if order.side = Side.BUY then current_price ≤ sp - trailing_amount
          else if order.side = Side.SELL then sp + trailing_amount ≤ current_price
          else false
      | _, _ => false
  | _ => false

/-- Modelled from the spec: the trigger predicate as §4.4 states it, covering
all four conditional types (STOP / STOP_LIMIT and TRAILING_STOP /
TRAILING_STOP_LIMIT).  Written from the spec's words for comparison with the
source predicate `conditionalTriggered`. -/
def specTriggerPredicate (order : Order) (current_price : ℚ) : Bool :=
  match order.order_type with
  | OrderType.STOP | OrderType.STOP_LIMIT =>
      match order.stop_price with
      | some sp =>
          if order.side = Side.BUY then sp ≤ current_price else current_price ≤ sp
      | none => false
  | OrderType.TRAILING_STOP | OrderType.TRAILING_STOP_LIMIT =>
      match order.trailing_percent, order.stop_price with
      | some tp, some sp =>
          let trailing_amount := current_price * (tp / 100)
          if order.side = Side.BUY then current_price ≤ sp - trailing_amount
          else sp + trailing_amount ≤ current_price
      | _, _ => false
  | _ => false

/-- The loop body of `check_conditional_orders` (main.py lines 179-210).  The
source iterates `pending_conditional_orders.items()` and executes
`del pending_conditional_orders[order_id]` inside the loop; CPython's dict
iterator then raises `RuntimeError: dictionary changed size during iteration`
on the next `next()` call (which happens even when the dict is exhausted).
Consequently at most one order can trigger per call, entries after the
triggered one are not visited, and the call always ends in an exception when
anything triggered.  Returns (remaining pending entries, orders_to_trigger
that are still reachable when control leaves the function, raised?). -/
def checkLoop (pend : List (String × Order)) (symbol : String) (current_price : ℚ)
    (now : ℕ) : List (String × Order) × List Order × Bool :=
  match pend with
  | [] => ([], [], false)
  | (oid, order) :: rest =>
      if order.symbol = symbol ∧ conditionalTriggered order current_price then
        let order' := { order with status := Status.TRIGGERED, triggered_at := some now }
        (rest, [order'], true)
      else
        let r := checkLoop rest symbol current_price now
        ((oid, order) :: r.1, r.2.1, r.2.2)

/-- Model of `check_conditional_orders` at the state level.  Mutating the
shared `OrderOut` object (status := TRIGGERED) is visible through
`store.orders` because the pending index aliases the ledger objects, so the
mutated orders are written back to the orders map here.  The Bool is the
`RuntimeError` escape: when true, the returned trigger list never reaches the
caller in the source. -/
def check_conditional_orders (st : BrokerState) (symbol : String) (current_price : ℚ)
    (now : ℕ) : BrokerState × List Order × Bool :=
  let r := checkLoop st.pending_conditional_orders symbol current_price now
  let orders' := r.2.1.foldl (fun os o => upsert os o.id o) st.orders
  ({ orders := orders', pending_conditional_orders := r.1 }, r.2.1, r.2.2)

/-- One pass of the `while True` body of `monitor_conditional_orders`
(main.py lines 530-553): iterate over a snapshot `list(pending.items())`,
call `check_conditional_orders` for each entry's symbol, and route every
returned triggered order.  A `RuntimeError` escaping from
`check_conditional_orders` aborts the whole pass (it is caught by the
surrounding `except Exception`), discarding the triggered-order list, so
nothing gets routed on that pass.  The reference price is a parameter here;
the source hardcodes `current_price = 100.0` (spec §9 flags this placeholder).
Returns the state after the pass together with the orders handed to
`route_order_to_exchange` during the pass. -/
def monitorPassLoop (st : BrokerState) (snapshot : List (String × Order))
    (current_price : ℚ) (now : ℕ) (routed : List Order) : BrokerState × List Order :=
  match snapshot with
  | [] => (st, routed)
  | (_, order) :: rest =>
      let r := check_conditional_orders st order.symbol current_price now
      if r.2.2 then (r.1, routed)
      else monitorPassLoop r.1 rest current_price now (routed ++ r.2.1)

/-- A single monitor pass over the current pending index. -/
def monitor_pass (st : BrokerState) (current_price : ℚ) (now : ℕ) :
    BrokerState × List Order :=
  monitorPassLoop st st.pending_conditional_orders current_price now []

/-- Entry of `Position.position_history` (appended on every
`update_position` call). -/
structure PositionHistEntry where
  timestamp : ℕ
  action : Side
  qty : ℤ
  price : ℚ
  quantity : ℤ
  avg_price : ℚ
deriving DecidableEq

/-- Model of `Position` (models.py). -/
structure Position where
  symbol : String
  quantity : ℤ
  avg_price : ℚ
  market_value : ℚ
  unrealized_pnl : ℚ
  realized_pnl : ℚ
  total_pnl : ℚ
  cost_basis : ℚ
  last_updated : ℕ
  position_history : List PositionHistEntry := []
deriving DecidableEq

/-- The zero position `update_position` creates for an unseen symbol
(main.py lines 478-489). -/
def freshPosition (symbol : String) (now : ℕ) : Position :=
  { symbol := symbol, quantity := 0, avg_price := 0, market_value := 0,
    unrealized_pnl := 0, realized_pnl := 0, total_pnl := 0, cost_basis := 0,
    last_updated := now }

/-- The per-position mutation of `update_position` (main.py lines 491-526):
BUY accumulates cost basis; SELL with a positive position realises
proportional P&L and floors quantity and cost basis at zero; SELL against a
non-positive position is a no-op apart from the timestamp and the history
entry appended on every call. -/
def applyFill (pos : Position) (side : Side) (qty : ℤ) (price : ℚ) (now : ℕ) : Position :=
  let pos1 :=
    if side = Side.BUY then
      let new_quantity := pos.quantity + qty
      let new_cost := pos.cost_basis + (qty : ℚ) * price
      { pos with
        quantity := new_quantity,
        cost_basis := new_cost,
        avg_price := if 0 < new_quantity then new_cost / (new_quantity : ℚ) else 0 }
    else
      if 0 < pos.quantity then
        let sold_cost := ((qty : ℚ) / (pos.quantity : ℚ)) * pos.cost_basis
        let sold_value := (qty : ℚ) * price
        let realized := sold_value - sold_cost
        let new_quantity := pos.quantity - qty
        let new_cost := pos.cost_basis - sold_cost
        { pos with
          realized_pnl := pos.realized_pnl + realized,
          quantity := max 0 new_quantity,
          cost_basis := max 0 new_cost,
          avg_price := if 0 < new_quantity then new_cost / (new_quantity : ℚ) else 0 }
      else pos
  { pos1 with
    last_updated := now,
    position_history := pos1.position_history ++
      [{ timestamp := now, action := side, qty := qty, price := price,
         quantity := pos1.quantity, avg_price := pos1.avg_price }] }

/-- Model of `update_position` over the positions dict (main.py lines
476-526). -/
def update_position (positions : List (String × Position)) (symbol : String)
    (side : Side) (qty : ℤ) (price : ℚ) (now : ℕ) : List (String × Position) :=
  let pos := (alookup positions symbol).getD (freshPosition symbol now)
  upsert positions symbol (applyFill pos side qty price now)

/-- A freshly taken-in 10-share MARKET order (for concrete evaluations). -/
def o10 : Order :=
  { id := "O1", symbol := "AAPL", side := Side.BUY, order_type := OrderType.MARKET,
    qty := 10, leaves_qty := 10 }

/-- An execution report over-filling `o10` (15 shares against a 10-share
order); `ExecIn.qty` is an unconstrained int in models.py. -/
def er15 : ExecIn :=
  { order_id := "O1", venue := "SIMX", price := 100, qty := 15, status := Status.FILLED }

/-- First fill of the spec's worked example: 5 shares at 100. -/
def fill5at100 : ExecIn :=
  { order_id := "O1", venue := "SIMX", price := 100, qty := 5, status := Status.NEW }

/-- Second fill of the spec's worked example: 5 shares at 102. -/
def fill5at102 : ExecIn :=
  { order_id := "O1", venue := "SIMX", price := 102, qty := 5, status := Status.FILLED }

/-- A 1000003-share order used to exhibit cumulative rounding drift. -/
def oDrift : Order :=
  { id := "O2", symbol := "AAPL", side := Side.BUY, order_type := OrderType.MARKET,
    qty := 1000003, leaves_qty := 1000003 }

/-- Drift fill 1: 1000000 shares at 100. -/
def drift1 : ExecIn :=
  { order_id := "O2", venue := "SIMX", price := 100, qty := 1000000, status := Status.NEW }

/-- Drift fill 2: 1 share at 100.51000051. -/
def drift2 : ExecIn :=
  { order_id := "O2", venue := "SIMX", price := (10051000051 : ℚ) / 100000000, qty := 1,
    status := Status.NEW }

/-- Drift fill 3: 1 share at 100.51000202. -/
def drift3 : ExecIn :=
  { order_id := "O2", venue := "SIMX", price := (10051000202 : ℚ) / 100000000, qty := 1,
    status := Status.NEW }

/-- Drift fill 4: 1 share at 100.51000353. -/
def drift4 : ExecIn :=
  { order_id := "O2", venue := "SIMX", price := (10051000353 : ℚ) / 100000000, qty := 1,
    status := Status.FILLED }

/-- The drift fill sequence. -/
def driftFills : List ExecIn := [drift1, drift2, drift3, drift4]

/-- A pending BUY STOP order with stop price 105 (the spec's §8 example). -/
def buyStop105 : Order :=
  { id := "OS1", symbol := "AAPL", side := Side.BUY, order_type := OrderType.STOP,
    qty := 10, stop_price := some 105, status := Status.STOP_PENDING, leaves_qty := 10 }

/-- Broker state holding only `buyStop105`, in the ledger and pending index. -/
def stMonitor : BrokerState :=
  { orders := [("OS1", buyStop105)],
    pending_conditional_orders := [("OS1", buyStop105)] }

/-- An OCO order request (limit leg at 100, stop leg at 90). -/
def ocoRequest : OrderIn :=
  { symbol := "AAPL", side := Side.BUY, order_type := OrderType.OCO, qty := 10,
    limit_price := some 100, stop_price := some 90 }

/-- State after placing `ocoRequest` into an empty broker. -/
def stOco : BrokerState :=
  (place_order { orders := [], pending_conditional_orders := [] } ocoRequest {}
    "PARENT" "LEG1" "LEG2" "LEG3" 0).1

/-- State after additionally cancelling the LIMIT leg of the OCO pair. -/
def stOcoCancel : BrokerState := (cancel_order stOco "LEG1" 1).1

/-- A pending SELL TRAILING_STOP_LIMIT order (trailing 5%, stop 100). -/
def tslSell : Order :=
  { id := "OT1", symbol := "AAPL", side := Side.SELL,
    order_type := OrderType.TRAILING_STOP_LIMIT, qty := 10, stop_price := some 100,
    trailing_percent := some 5, status := Status.STOP_PENDING, leaves_qty := 10 }

/-- A cancellable NEW order and the state holding it (cancel witness). -/
def newOrderA1 : Order :=
  { id := "A1", symbol := "MSFT", side := Side.SELL, order_type := OrderType.LIMIT,
    qty := 7, limit_price := some 101, leaves_qty := 7 }

/-- State holding `newOrderA1` in the ledger and pending index. -/
def stCancelW : BrokerState :=
  { orders := [("A1", newOrderA1)], pending_conditional_orders := [("A1", newOrderA1)] }

/-- An order request whose notional (100 * 3000 = 300000) exceeds the default
250000 cap. -/
def bigOrder : OrderIn :=
  { symbol := "AAPL", side := Side.BUY, order_type := OrderType.MARKET, qty := 3000 }

/-- An order request within cap and collar (notional 100). -/
def okOrder : OrderIn :=
  { symbol := "AAPL", side := Side.BUY, order_type := OrderType.MARKET, qty := 1 }

/-- A terminal (canceled) order sitting in the ledger. -/
def canceledOrder : Order :=
  { id := "C1", symbol := "AAPL", side := Side.BUY, order_type := OrderType.LIMIT,
    qty := 10, limit_price := some 100, status := Status.CANCELED, leaves_qty := 10,
    message := some "Canceled by user" }

/-- An execution report arriving for the already-canceled order. -/
def erOnCanceled : ExecIn :=
  { order_id := "C1", venue := "SIMX", price := 50, qty := 1, status := Status.PENDING }

/-- A long position: 10 shares, average price 100, cost basis 1000. -/
def pos10at100 : Position :=
  { symbol := "AAPL", quantity := 10, avg_price := 100, market_value := 0,
    unrealized_pnl := 0, realized_pnl := 0, total_pnl := 0, cost_basis := 1000,
    last_updated := 0 }

/-- A flat position (quantity 0) with non-zero realized P&L history. -/
def posFlat : Position :=
  { symbol := "AAPL", quantity := 0, avg_price := 0, market_value := 0,
    unrealized_pnl := 0, realized_pnl := 25, total_pnl := 0, cost_basis := 0,
    last_updated := 0 }

end Broker

namespace Broker

theorem applyExec_qty (o : Order) (er : ExecIn) (now : ℕ) :
    (applyExec o er now).qty = o.qty := rfl

theorem applyExec_filled (o : Order) (er : ExecIn) (now : ℕ) :
    (applyExec o er now).filled_qty = o.filled_qty + er.qty := rfl

theorem applyExec_leaves (o : Order) (er : ExecIn) (now : ℕ) :
    (applyExec o er now).leaves_qty = max 0 (o.qty - (o.filled_qty + er.qty)) := rfl

theorem applyExecs_nil (o : Order) (now : ℕ) : applyExecs o [] now = o := rfl

theorem applyExecs_cons (o : Order) (er : ExecIn) (ers : List ExecIn) (now : ℕ) :
    applyExecs o (er :: ers) now = applyExecs (applyExec o er now) ers now := rfl

theorem applyExecs_qty (o : Order) (ers : List ExecIn) (now : ℕ) :
    (applyExecs o ers now).qty = o.qty := by
  induction ers generalizing o with
  | nil => rfl
  | cons er rest ih => rw [applyExecs_cons, ih, applyExec_qty]

theorem applyExecs_filled (o : Order) (ers : List ExecIn) (now : ℕ) :
    (applyExecs o ers now).filled_qty = o.filled_qty + (ers.map ExecIn.qty).sum := by
  induction ers generalizing o with
  | nil => simp [applyExecs_nil]
  | cons er rest ih =>
      rw [applyExecs_cons, ih, applyExec_filled]
      simp [add_assoc]

theorem applyExecs_leaves (o : Order) (ers : List ExecIn) (now : ℕ) (h : ers ≠ []) :
    (applyExecs o ers now).leaves_qty
      = max 0 (o.qty - (applyExecs o ers now).filled_qty) := by
  induction ers generalizing o with
  | nil => exact absurd rfl h
  | cons er rest ih =>
      rw [applyExecs_cons]
      rcases rest with _ | ⟨e2, rest'⟩
      · rw [applyExecs_nil, applyExec_leaves, applyExec_filled]
      · rw [ih (applyExec o er now) (by simp), applyExec_qty]

theorem sum_take_nonneg (l : List ℤ) (h : ∀ x ∈ l, 0 ≤ x) (n : ℕ) :
    0 ≤ (l.take n).sum :=
  List.sum_nonneg (fun x hx => h x (List.mem_of_mem_take hx))

theorem sum_take_mono (l : List ℤ) (h : ∀ x ∈ l, 0 ≤ x) {m n : ℕ} (hmn : m ≤ n) :
    (l.take m).sum ≤ (l.take n).sum := by
  have hsplit : l.take n = l.take m ++ (l.drop m).take (n - m) := by
    rw [← List.take_add]
    congr 1
    omega
  have h2 : 0 ≤ ((l.drop m).take (n - m)).sum :=
    List.sum_nonneg (fun x hx => h x (List.mem_of_mem_drop (List.mem_of_mem_take hx)))
  rw [hsplit, List.sum_append]
  omega

theorem sum_take_le_sum (l : List ℤ) (h : ∀ x ∈ l, 0 ≤ x) (n : ℕ) :
    (l.take n).sum ≤ l.sum := by
  conv_rhs => rw [← List.take_append_drop n l]
  rw [List.sum_append]
  have h2 : 0 ≤ (l.drop n).sum :=
    List.sum_nonneg (fun x hx => h x (List.mem_of_mem_drop hx))
  omega

/-- C1 (counterexample): with no precondition bounding the report quantities,
the conservation law fails.  A single 15-share execution report applied to the
freshly taken-in 10-share order `o10` drives `filled_qty` to 15 while
`leaves_qty` is floored at 0, so `filled_qty + leaves_qty = 15 ≠ 10`. -/
theorem c1_overfill_counterexample :
    (applyExec o10 er15 1).filled_qty + (applyExec o10 er15 1).leaves_qty ≠ o10.qty := by
  decide

/-- C1 (amended): provided every applied report quantity is non-negative and
the report quantities sum to at most the original requested quantity, then
after every prefix of the report sequence `filled_qty + leaves_qty = qty`,
`filled_qty ≥ 0`, `leaves_qty ≥ 0`, and `filled_qty` is monotonically
non-decreasing across successive reports (main.py lines 982-983). -/
theorem c1_fill_invariants (o : Order) (ers : List ExecIn) (now : ℕ)
    (h0 : o.filled_qty = 0) (hl : o.leaves_qty = o.qty) (hq : 0 ≤ o.qty)
    (hpos : ∀ er ∈ ers, 0 ≤ er.qty)
    (hsum : (ers.map ExecIn.qty).sum ≤ o.qty) :
    ∀ n,
      (applyExecs o (ers.take n) now).filled_qty
          + (applyExecs o (ers.take n) now).leaves_qty = o.qty
        ∧ 0 ≤ (applyExecs o (ers.take n) now).filled_qty
        ∧ 0 ≤ (applyExecs o (ers.take n) now).leaves_qty
        ∧ ∀ m, m ≤ n →
            (applyExecs o (ers.take m) now).filled_qty
              ≤ (applyExecs o (ers.take n) now).filled_qty := by
  intro n
  have hqmap : ∀ x ∈ ers.map ExecIn.qty, (0 : ℤ) ≤ x := by
    intro x hx
    rcases List.mem_map.mp hx with ⟨er, her, rfl⟩
    exact hpos er her
  have hfill : ∀ k, (applyExecs o (ers.take k) now).filled_qty
      = ((ers.map ExecIn.qty).take k).sum := by
    intro k
    rw [applyExecs_filled, h0, zero_add, ← List.map_take]
  have hfill_nonneg : ∀ k, 0 ≤ (applyExecs o (ers.take k) now).filled_qty := by
    intro k
    rw [hfill]
    exact sum_take_nonneg _ hqmap k
  have hfill_le : ∀ k, (applyExecs o (ers.take k) now).filled_qty ≤ o.qty := by
    intro k
    rw [hfill]
    exact le_trans (sum_take_le_sum _ hqmap k) hsum
  have hmono : ∀ m, m ≤ n →
      (applyExecs o (ers.take m) now).filled_qty
        ≤ (applyExecs o (ers.take n) now).filled_qty := by
    intro m hm
    rw [hfill, hfill]
    exact sum_take_mono _ hqmap hm
  by_cases hnil : ers.take n = []
  · refine ⟨?_, ?_, ?_, hmono⟩ <;> rw [hnil, applyExecs_nil] <;> omega
  · have hleaves := applyExecs_leaves o (ers.take n) now hnil
    have hle := hfill_le n
    have hnn := hfill_nonneg n
    refine ⟨?_, hnn, ?_, hmono⟩
    · rw [hleaves]
      omega
    · rw [hleaves]
      omega

/-- C1 (witness): the two 5-share fills of the worked example respect the
invariants; hypotheses of `c1_fill_invariants` hold for this input. -/
theorem c1_fill_invariants_witness :
    (applyExecs o10 ([fill5at100, fill5at102].take 2) 1).filled_qty
        + (applyExecs o10 ([fill5at100, fill5at102].take 2) 1).leaves_qty = o10.qty
      ∧ 0 ≤ (applyExecs o10 ([fill5at100, fill5at102].take 2) 1).filled_qty
      ∧ (applyExecs o10 ([fill5at100, fill5at102].take 1) 1).filled_qty
          ≤ (applyExecs o10 ([fill5at100, fill5at102].take 2) 1).filled_qty := by
  have h := c1_fill_invariants o10 [fill5at100, fill5at102] 1 rfl rfl (by decide)
    (by decide) (by decide) 2
  exact ⟨h.1, h.2.1, h.2.2.2 1 (by decide)⟩

/-- C8 (counterexample): `exec_report` has no terminal-status guard.  Applying
a 1-share report to the CANCELED order `canceledOrder` changes its
`filled_qty` and its `status`. -/
theorem c8_terminal_mutation_counterexample :
    (applyExec canceledOrder erOnCanceled 2).filled_qty ≠ canceledOrder.filled_qty
      ∧ (applyExec canceledOrder erOnCanceled 2).status ≠ canceledOrder.status := by
  decide

/-- C8 (amended): `exec_report` applies its mutations regardless of the
order's current status — an order in a terminal status (FILLED, CANCELED or
REJECTED) is mutated exactly like any other order: `filled_qty`, `status` and
`message` are overwritten, and the result does not depend on the prior status
at all (main.py lines 976-1005 contain no status check). -/
theorem c8_no_terminal_guard (o : Order) (er : ExecIn) (now : ℕ)
    (_h : o.status = Status.FILLED ∨ o.status = Status.CANCELED
        ∨ o.status = Status.REJECTED) :
    (applyExec o er now).filled_qty = o.filled_qty + er.qty
      ∧ (applyExec o er now).status = er.status
      ∧ (applyExec o er now).message = er.message
      ∧ applyExec o er now = applyExec { o with status := Status.NEW } er now := by
  refine ⟨rfl, rfl, rfl, ?_⟩
  cases o
  rfl

/-- C8 (witness): the canceled order is indeed mutated by a further report. -/
theorem c8_no_terminal_guard_witness :
    (applyExec canceledOrder erOnCanceled 2).filled_qty
        = canceledOrder.filled_qty + erOnCanceled.qty
      ∧ (applyExec canceledOrder erOnCanceled 2).status = erOnCanceled.status := by
  have h := c8_no_terminal_guard canceledOrder erOnCanceled 2 (Or.inr (Or.inl rfl))
  exact ⟨h.1, h.2.1⟩

theorem alookup_upsert_self {α : Type} (l : List (String × α)) (k : String) (v : α) :
    alookup (upsert l k v) k = some v := by
  induction l with
  | nil => simp [upsert, alookup]
  | cons p rest ih =>
      obtain ⟨k', w⟩ := p
      by_cases h : k' = k
      · simp [upsert, h, alookup]
      · simp [upsert, h, alookup, ih]

theorem alookup_upsert_ne {α : Type} (l : List (String × α)) (k k' : String) (v : α)
    (h : k' ≠ k) : alookup (upsert l k v) k' = alookup l k' := by
  induction l with
  | nil => simp [upsert, alookup, Ne.symm h]
  | cons p rest ih =>
      obtain ⟨k'', w⟩ := p
      by_cases h2 : k'' = k
      · subst h2
        simp [upsert, alookup, Ne.symm h]
      · simp [upsert, h2, alookup, ih]

theorem alookup_filter_ne {α : Type} (l : List (String × α)) (k : String) :
    alookup (l.filter (fun p => p.1 ≠ k)) k = none := by
  induction l with
  | nil => rfl
  | cons p rest ih =>
      obtain ⟨k', v⟩ := p
      simp only [decide_not] at ih
      by_cases h : k' = k
      · simp [List.filter_cons, h, ih, decide_not]
      · simp [List.filter_cons, h, alookup, ih, decide_not]

/-- C9: a SELL fill of `qty ≤ pos.quantity` shares at `price` against a
positive position realises `qty * price - (qty / pos.quantity) * cost_basis`,
reduces the quantity to `pos.quantity - qty` and reduces the cost basis by
the sold proportion, floored at zero (main.py lines 500-514); in particular
selling 5 of 10 shares held at average price 100 realises
`5 * price - 5 * 100` and halves the cost basis. -/
theorem c9_sell_proportional_pnl (pos : Position) (qty : ℤ) (price : ℚ) (now : ℕ)
    (hq : 0 < pos.quantity) (hle : qty ≤ pos.quantity) :
    (applyFill pos Side.SELL qty price now).realized_pnl
        = pos.realized_pnl
          + ((qty : ℚ) * price - ((qty : ℚ) / (pos.quantity : ℚ)) * pos.cost_basis)
      ∧ (applyFill pos Side.SELL qty price now).quantity = pos.quantity - qty
      ∧ (applyFill pos Side.SELL qty price now).cost_basis
          = max 0 (pos.cost_basis - ((qty : ℚ) / (pos.quantity : ℚ)) * pos.cost_basis)
      ∧ (applyFill pos10at100 Side.SELL 5 price 9).realized_pnl = 5 * price - 5 * 100
      ∧ (applyFill pos10at100 Side.SELL 5 price 9).quantity = 5
      ∧ (applyFill pos10at100 Side.SELL 5 price 9).cost_basis = pos10at100.cost_basis / 2 := by
  refine ⟨?_, ?_, ?_, ?_, ?_, ?_⟩
  · simp [applyFill, hq]
  · simp [applyFill, hq]
    omega
  · simp [applyFill, hq]
  · simp [applyFill, pos10at100]
    ring_nf
  · simp [applyFill, pos10at100]
  · simp [applyFill, pos10at100]
    norm_num

/-- C9 (witness): selling 5 shares at 110 against `pos10at100` realises
`5 * 110 - 5 * 100 = 50` and leaves 5 shares. -/
theorem c9_sell_proportional_pnl_witness :
    (applyFill pos10at100 Side.SELL 5 110 9).realized_pnl = 5 * 110 - 5 * 100
      ∧ (applyFill pos10at100 Side.SELL 5 110 9).quantity = 5 := by
  have h := c9_sell_proportional_pnl pos10at100 5 110 9 (by decide) (by decide)
  exact ⟨h.2.2.2.1, h.2.2.2.2.1⟩

/-- C10: a SELL fill against a flat position (quantity 0, including a symbol
with no prior position) leaves quantity, cost basis, average price and
realized P&L unchanged; only the timestamp is refreshed and a history entry
appended (main.py lines 500-526 skip the whole SELL block when
`pos.quantity > 0` fails, then stamp and append unconditionally).  For an
unseen symbol, a zero position is created first and ends up stored with only
the stamp and the history entry. -/
theorem c10_sell_flat_frame (pos : Position) (qty : ℤ) (price : ℚ) (now : ℕ)
    (hflat : pos.quantity = 0) :
    (applyFill pos Side.SELL qty price now).quantity = pos.quantity
      ∧ (applyFill pos Side.SELL qty price now).cost_basis = pos.cost_basis
      ∧ (applyFill pos Side.SELL qty price now).avg_price = pos.avg_price
      ∧ (applyFill pos Side.SELL qty price now).realized_pnl = pos.realized_pnl
      ∧ (applyFill pos Side.SELL qty price now).last_updated = now
      ∧ (applyFill pos Side.SELL qty price now).position_history
          = pos.position_history ++
            [{ timestamp := now, action := Side.SELL, qty := qty, price := price,
               quantity := pos.quantity, avg_price := pos.avg_price }]
      ∧ ∀ (ps : List (String × Position)) (sym : String),
          alookup ps sym = none →
            alookup (update_position ps sym Side.SELL qty price now) sym
              = some { freshPosition sym now with
                       last_updated := now,
                       position_history :=
                         [{ timestamp := now, action := Side.SELL, qty := qty, price := price,
                            quantity := 0, avg_price := 0 }] } := by
  have hnot : ¬ (0 : ℤ) < pos.quantity := by omega
  refine ⟨?_, ?_, ?_, ?_, ?_, ?_, ?_⟩
  · simp [applyFill, hnot]
  · simp [applyFill, hnot]
  · simp [applyFill, hnot]
  · simp [applyFill, hnot]
  · simp [applyFill, hnot]
  · simp [applyFill, hnot]
  · intro ps sym h
    simp [update_position, h, applyFill, freshPosition, alookup_upsert_self]

/-- C10 (witness): a 3-share SELL against the flat position `posFlat` leaves
its realized P&L and quantity untouched. -/
theorem c10_sell_flat_frame_witness :
    (applyFill posFlat Side.SELL 3 50 4).realized_pnl = posFlat.realized_pnl
      ∧ (applyFill posFlat Side.SELL 3 50 4).quantity = posFlat.quantity := by
  have h := c10_sell_flat_frame posFlat 3 50 4 rfl
  exact ⟨h.2.2.2.1, h.1⟩

theorem alookup_cascadeLinked (orders1 : List (String × Order)) (oid : String)
    (o' : Order) (hself : alookup orders1 oid = some o')
    (hterm : terminalStatus o'.status = true) (link : Option String) (now : ℕ) :
    alookup (cascadeLinked orders1 link now) oid = some o' := by
  unfold cascadeLinked
  split
  · exact hself
  · split
    · exact hself
    · split
      · exact hself
      · rename_i lid hlid linked hl hterm2
        have hne : oid ≠ lid := by
          intro h
          rw [← h, hself] at hl
          injection hl with h2
          exact hterm2 (h2 ▸ hterm)
        rw [alookup_upsert_ne _ _ _ _ hne]
        exact hself

/-- C6: the cancellation contract (main.py lines 761-797).  `cancel` fails
with NotFound exactly when the id is unknown; for a known order it fails with
InvalidState exactly when the status is terminal (FILLED/CANCELED/REJECTED),
leaving the state untouched; otherwise it succeeds, the stored order becomes
CANCELED with the message "Canceled by user" and the updated timestamp, and
the id is no longer in the pending-conditional index. -/
theorem c6_cancel_contract (st : BrokerState) (oid : String) (now : ℕ) :
    ((cancel_order st oid now).2 = CancelResult.notFound ↔ alookup st.orders oid = none)
      ∧ (∀ o, alookup st.orders oid = some o → terminalStatus o.status = true →
          (cancel_order st oid now).2 = CancelResult.invalidState o.status
            ∧ (cancel_order st oid now).1 = st)
      ∧ (∀ o, alookup st.orders oid = some o → terminalStatus o.status = false →
          (cancel_order st oid now).2 = CancelResult.ok
            ∧ alookup (cancel_order st oid now).1.orders oid
                = some { o with
                         status := Status.CANCELED,
                         message := some "Canceled by user",
                         last_modified := now }
            ∧ alookup (cancel_order st oid now).1.pending_conditional_orders oid = none) := by
  rcases halook : alookup st.orders oid with _ | o
  · refine ⟨by simp [cancel_order, halook], ?_, ?_⟩ <;>
      exact fun o ho _ => Option.noConfusion ho
  · by_cases ht : terminalStatus o.status = true
    · refine ⟨by simp [cancel_order, halook, ht], ?_, ?_⟩
      · intro o' ho' _
        injection ho' with hoe
        subst hoe
        exact ⟨by simp [cancel_order, halook, ht], by simp [cancel_order, halook, ht]⟩
      · intro o' ho' hnt
        injection ho' with hoe
        subst hoe
        rw [ht] at hnt
        cases hnt
    · have ht' : terminalStatus o.status = false := by
        revert ht
        cases terminalStatus o.status <;> simp
      refine ⟨by simp [cancel_order, halook, ht'], ?_, ?_⟩
      · intro o' ho' htt
        injection ho' with hoe
        subst hoe
        rw [ht'] at htt
        cases htt
      · intro o' ho' _
        injection ho' with hoe
        subst hoe
        refine ⟨by simp [cancel_order, halook, ht'], ?_, ?_⟩
        · simp only [cancel_order, halook, ht', Bool.false_eq_true, if_false]
          refine alookup_cascadeLinked _ _ _ (alookup_upsert_self _ _ _) ?_ _ _
          rfl
        · simp only [cancel_order, halook, ht', Bool.false_eq_true, if_false]
          exact alookup_filter_ne _ _

/-- C6 (witness): cancelling the NEW order `newOrderA1` in `stCancelW`
succeeds, stores it as CANCELED with the message and timestamp, and removes
it from the pending index; hypotheses of `c6_cancel_contract` discharge by
evaluation. -/
theorem c6_cancel_contract_witness :
    (cancel_order stCancelW "A1" 3).2 = CancelResult.ok
      ∧ alookup (cancel_order stCancelW "A1" 3).1.orders "A1"
          = some { newOrderA1 with
                   status := Status.CANCELED,
                   message := some "Canceled by user",
                   last_modified := 3 }
      ∧ alookup (cancel_order stCancelW "A1" 3).1.pending_conditional_orders "A1" = none := by
  have h := (c6_cancel_contract stCancelW "A1" 3).2.2 newOrderA1 (by decide) (by decide)
  exact h

/-- C2 (failing-input evaluation): placing the OCO request does create exactly
two child orders — a LIMIT leg and a STOP leg, both inserted into the ledger —
but both carry `linked_order_id = "PARENT"` (the parent id, not each other's
id).  Cancelling the LIMIT leg therefore cascades the cancellation to the
PARENT record, and the STOP leg is left with status NEW, contradicting the
one-cancels-other rule. -/
theorem c2_oco_cancel_divergence :
    (alookup stOco.orders "LEG1").map Order.order_type = some OrderType.LIMIT
      ∧ (alookup stOco.orders "LEG2").map Order.order_type = some OrderType.STOP
      ∧ ((alookup stOco.orders "LEG1").bind Order.linked_order_id) = some "PARENT"
      ∧ ((alookup stOco.orders "LEG2").bind Order.linked_order_id) = some "PARENT"
      ∧ (cancel_order stOco "LEG1" 1).2 = CancelResult.ok
      ∧ (alookup stOcoCancel.orders "LEG1").map Order.status = some Status.CANCELED
      ∧ (alookup stOcoCancel.orders "PARENT").map Order.status = some Status.CANCELED
      ∧ (alookup stOcoCancel.orders "LEG2").map Order.status = some Status.NEW
      ∧ (alookup stOcoCancel.orders "LEG2").map Order.status ≠ some Status.CANCELED := by
  with_unfolding_all decide

theorem checkLoop_no_raise (pend : List (String × Order)) (symbol : String)
    (price : ℚ) (now : ℕ) (h : (checkLoop pend symbol price now).2.2 = false) :
    (checkLoop pend symbol price now).2.1 = [] := by
  induction pend with
  | nil => rfl
  | cons p rest ih =>
      obtain ⟨oid, o⟩ := p
      by_cases hc : o.symbol = symbol ∧ conditionalTriggered o price
      · simp [checkLoop, hc] at h
      · simp only [checkLoop, hc, if_false] at h ⊢
        exact ih h

theorem monitorPassLoop_routes_nothing (snapshot : List (String × Order))
    (st : BrokerState) (price : ℚ) (now : ℕ) (routed : List Order) :
    (monitorPassLoop st snapshot price now routed).2 = routed := by
  induction snapshot generalizing st routed with
  | nil => rfl
  | cons p rest ih =>
      obtain ⟨oid, o⟩ := p
      rw [monitorPassLoop]
      by_cases hr : (check_conditional_orders st o.symbol price now).2.2 = true
      · simp [hr]
      · have hr' : (check_conditional_orders st o.symbol price now).2.2 = false := by
          revert hr
          cases (check_conditional_orders st o.symbol price now).2.2 <;> simp
        have hempty : (check_conditional_orders st o.symbol price now).2.1 = [] :=
          checkLoop_no_raise st.pending_conditional_orders o.symbol price now hr'
        simp [hr', hempty, ih]

/-- C4 (failing-input evaluation and general fact): the pending BUY STOP with
stop price 105 stays untouched at reference prices 100 and 103; at 106 it is
removed from the pending index and marked TRIGGERED with a trigger timestamp,
but the monitor pass routes nothing — in fact no monitor pass ever hands any
order to routing, because `check_conditional_orders` mutates the dict it is
iterating (raising RuntimeError, swallowed by the monitor loop) whenever an
order triggers, and returns an empty trigger list otherwise. -/
theorem c4_trigger_routes_nothing :
    monitor_pass stMonitor 100 7 = (stMonitor, [])
      ∧ monitor_pass stMonitor 103 7 = (stMonitor, [])
      ∧ (monitor_pass stMonitor 106 7).1.pending_conditional_orders = []
      ∧ ((alookup (monitor_pass stMonitor 106 7).1.orders "OS1").map Order.status)
          = some Status.TRIGGERED
      ∧ ((alookup (monitor_pass stMonitor 106 7).1.orders "OS1").bind Order.triggered_at)
          = some 7
      ∧ (monitor_pass stMonitor 106 7).2 = []
      ∧ ∀ (st : BrokerState) (price : ℚ) (now : ℕ), (monitor_pass st price now).2 = [] := by
  refine ⟨by with_unfolding_all decide, by with_unfolding_all decide,
    by with_unfolding_all decide, by with_unfolding_all decide,
    by with_unfolding_all decide, by with_unfolding_all decide, ?_⟩
  intro st price now
  exact monitorPassLoop_routes_nothing st.pending_conditional_orders st price now []

/-- C5 (counterexample): the SELL TRAILING_STOP_LIMIT order `tslSell`
(trailing 5%, stop 100) satisfies the spec's trigger condition at price 200
(200 ≥ 100 + 200·5/100 = 110), but `check_conditional_orders` has no branch
for TRAILING_STOP_LIMIT and never triggers it. -/
theorem c5_trailing_stop_limit_counterexample :
    specTriggerPredicate tslSell 200 = true ∧ conditionalTriggered tslSell 200 = false := by
  with_unfolding_all decide

/-- C5 (amended): the monitor's trigger predicate matches the spec for STOP
and STOP_LIMIT (BUY iff price ≥ stop, SELL iff price ≤ stop) and for
TRAILING_STOP with a trailing percent set (BUY iff price ≤ stop − trailing,
SELL iff price ≥ stop + trailing, trailing = price·percent/100), but a
TRAILING_STOP_LIMIT order is never triggered; all four conditional types are
placed into the pending index with status STOP_PENDING. -/
theorem c5_trigger_predicate (o : Order) (price sp : ℚ) (hsp : o.stop_price = some sp) :
    ((o.order_type = OrderType.STOP ∨ o.order_type = OrderType.STOP_LIMIT) →
        (conditionalTriggered o price = true ↔
          ((o.side = Side.BUY ∧ sp ≤ price) ∨ (o.side = Side.SELL ∧ price ≤ sp))))
      ∧ (∀ tp, o.trailing_percent = some tp → o.order_type = OrderType.TRAILING_STOP →
          (conditionalTriggered o price = true ↔
            ((o.side = Side.BUY ∧ price ≤ sp - price * (tp / 100))
              ∨ (o.side = Side.SELL ∧ sp + price * (tp / 100) ≤ price))))
      ∧ (o.order_type = OrderType.TRAILING_STOP_LIMIT → conditionalTriggered o price = false)
      ∧ ∀ (st : BrokerState) (oin : OrderIn) (cfg : RiskCfg) (oid c1 c2 c3 : String) (now : ℕ),
          isConditionalType oin.order_type = true →
          pretrade_checks oin cfg = RiskDecision.allowed →
          ((place_order st oin cfg oid c1 c2 c3 now).2
              = PlaceResult.placed { mkOrderOut oin oid now with status := Status.STOP_PENDING }
            ∧ (place_order st oin cfg oid c1 c2 c3 now).1.pending_conditional_orders
              = st.pending_conditional_orders
                ++ [(oid, { mkOrderOut oin oid now with status := Status.STOP_PENDING })]) := by
  refine ⟨?_, ?_, ?_, ?_⟩
  · intro htype
    rcases htype with h | h <;> cases hside : o.side <;>
      simp [conditionalTriggered, h, hsp, hside]
  · intro tp htp htype
    cases hside : o.side <;> simp [conditionalTriggered, htype, hsp, htp, hside]
  · intro htype
    simp [conditionalTriggered, htype]
  · intro st oin cfg oid c1 c2 c3 now hcond hallow
    simp [place_order, hallow, hcond]

/-- C5 (witness): the STOP order `buyStop105` follows the claimed predicate at
price 106, and the TRAILING_STOP_LIMIT order `tslSell` is never triggered. -/
theorem c5_trigger_predicate_witness :
    (conditionalTriggered buyStop105 106 = true ↔
        ((buyStop105.side = Side.BUY ∧ (105 : ℚ) ≤ 106)
          ∨ (buyStop105.side = Side.SELL ∧ (106 : ℚ) ≤ 105)))
      ∧ conditionalTriggered tslSell 200 = false := by
  have h1 := c5_trigger_predicate buyStop105 106 105 rfl
  have h2 := c5_trigger_predicate tslSell 200 100 rfl
  exact ⟨h1.1 (Or.inl rfl), h2.2.2.1 rfl⟩

/-- C7 (gate logic and actual request path): the decision function of
`pretrade_checks` rejects exactly when notional exceeds the cap, carrying the
computed notional and the configured cap in the rejection, and allows an
order within cap and collar; the `place_order` body would return the
rejection with the ledger untouched.  However, the handler as written
(main.py line 627) never awaits the async `pretrade_checks`, so every request
errors out before any of this logic runs, with the state unchanged. -/
theorem c7_risk_gate (oin : OrderIn) (cfg : RiskCfg) (st : BrokerState)
    (oid c1 c2 c3 : String) (now : ℕ) :
    (cfg.max_notional_per_order < (oin.limit_price.getD lastTradeRef) * (oin.qty : ℚ) →
        pretrade_checks oin cfg
            = RiskDecision.maxNotionalExceeded
                ((oin.limit_price.getD lastTradeRef) * (oin.qty : ℚ))
                cfg.max_notional_per_order
          ∧ place_order st oin cfg oid c1 c2 c3 now
              = (st, PlaceResult.rejected
                  (RiskDecision.maxNotionalExceeded
                    ((oin.limit_price.getD lastTradeRef) * (oin.qty : ℚ))
                    cfg.max_notional_per_order)))
      ∧ ((oin.limit_price.getD lastTradeRef) * (oin.qty : ℚ) ≤ cfg.max_notional_per_order →
          within_collars lastTradeRef (oin.limit_price.getD lastTradeRef) cfg.collars_pct
            = true →
          pretrade_checks oin cfg = RiskDecision.allowed)
      ∧ (place_order_request st oin cfg).1 = st
      ∧ (place_order_request st oin cfg).2
          = Except.error "TypeError: cannot unpack non-iterable coroutine object" := by
  refine ⟨?_, ?_, rfl, rfl⟩
  · intro h
    constructor
    · simp [pretrade_checks, h]
    · simp [place_order, pretrade_checks, h]
  · intro h1 h2
    have hfalse : ¬ (cfg.max_notional_per_order
        < (oin.limit_price.getD lastTradeRef) * (oin.qty : ℚ)) := not_lt.mpr h1
    simp [pretrade_checks, hfalse, h2]

/-- C7 (witness): the 3000-share market request at reference price 100 has
notional 300000 and is rejected by the gate logic with both numbers; the
1-share request passes; the actual request path leaves the state unchanged. -/
theorem c7_risk_gate_witness :
    pretrade_checks bigOrder {}
        = RiskDecision.maxNotionalExceeded
            ((bigOrder.limit_price.getD lastTradeRef) * (bigOrder.qty : ℚ))
            (({} : RiskCfg).max_notional_per_order)
      ∧ pretrade_checks okOrder {} = RiskDecision.allowed
      ∧ (place_order_request { orders := [], pending_conditional_orders := [] } bigOrder {}).1
          = { orders := [], pending_conditional_orders := [] } := by
  exact ⟨((c7_risk_gate bigOrder {} ⟨[], []⟩ "X" "A" "B" "C" 0).1
      (by with_unfolding_all decide)).1,
    (c7_risk_gate okOrder {} ⟨[], []⟩ "X" "A" "B" "C" 0).2.1
      (by with_unfolding_all decide) (by with_unfolding_all decide),
    (c7_risk_gate bigOrder {} ⟨[], []⟩ "X" "A" "B" "C" 0).2.2.1⟩

theorem roundHalfEven_close (y : ℚ) : |(roundHalfEven y : ℚ) - y| ≤ 1/2 := by
  have hfr : Int.fract y = y - (⌊y⌋ : ℚ) := rfl
  have h0 : (0 : ℚ) ≤ Int.fract y := Int.fract_nonneg y
  have h1 : Int.fract y < 1 := Int.fract_lt_one y
  rw [roundHalfEven]
  by_cases hc : Int.fract y < 1/2
  · rw [if_pos hc, abs_le]
    constructor <;> linarith
  · rw [if_neg hc]
    by_cases h2 : (1 : ℚ)/2 < Int.fract y
    · rw [if_pos h2, abs_le]
      push_cast
      constructor <;> linarith
    · rw [if_neg h2]
      have h3 : Int.fract y = 1/2 := le_antisymm (not_lt.mp h2) (not_lt.mp hc)
      by_cases h4 : ⌊y⌋ % 2 = 0
      · rw [if_pos h4, abs_le]
        constructor <;> linarith
      · rw [if_neg h4, abs_le]
        push_cast
        constructor <;> linarith

theorem round6_close (x : ℚ) : |round6 x - x| ≤ 1/2000000 := by
  have h := roundHalfEven_close (x * 1000000)
  rw [round6]
  have heq : (roundHalfEven (x * 1000000) : ℚ)/1000000 - x
      = ((roundHalfEven (x * 1000000) : ℚ) - x * 1000000)/1000000 := by
    ring
  rw [heq, abs_div, abs_of_pos (by norm_num : (0 : ℚ) < 1000000)]
  linarith

theorem execAvgExact_fold (ers : List ExecIn) : ∀ (S : ℚ) (F : ℤ), 0 < F →
    (∀ er ∈ ers, 0 < er.qty) →
    ers.foldl execAvgExactStep (some (S / (F : ℚ)), F)
      = (some ((S + (ers.map fun er => er.price * (er.qty : ℚ)).sum)
            / ((F : ℚ) + (ers.map fun er => (er.qty : ℚ)).sum)),
         F + (ers.map ExecIn.qty).sum) := by
  induction ers with
  | nil => intro S F _ _; simp
  | cons er rest ih =>
      intro S F hF hq
      have hFne : ((F : ℤ) : ℚ) ≠ 0 := by
        exact_mod_cast hF.ne'
      have hstep : execAvgExactStep (some (S / (F : ℚ)), F) er
          = (some ((S + er.price * (er.qty : ℚ)) / ((F + er.qty : ℤ) : ℚ)), F + er.qty) := by
        simp only [execAvgExactStep]
        rw [div_mul_cancel₀ _ hFne]
      have hF' : (0 : ℤ) < F + er.qty := by
        have := hq er (by simp)
        omega
      rw [List.foldl_cons, hstep,
        ih (S + er.price * (er.qty : ℚ)) (F + er.qty) hF'
          (fun e he => hq e (by simp [he]))]
      simp only [List.map_cons, List.sum_cons, Prod.mk.injEq, Option.some.injEq]
      constructor
      · push_cast
        ring
      · ring

/-- C3 (counterexample): the stored average can drift more than 1e-6 away
from the quantity-weighted mean of the report prices.  Over the four fills of
`driftFills` (one large fill at 100 followed by three one-share fills whose
prices each push the 6-decimal rounding upward), the stored average is
100.000003 while the exact weighted mean is ≈100.00000153, a gap of
≈1.47e-6. -/
theorem c3_avg_drift_counterexample :
    ¬ (|(applyExecs oDrift driftFills 0).avg_price.getD 0
        - (driftFills.map fun er => er.price * (er.qty : ℚ)).sum
          / (driftFills.map fun er => (er.qty : ℚ)).sum| ≤ 1/1000000) := by
  with_unfolding_all decide

/-- C3 (amended): `exec_report` computes the average-price recurrence exactly
as specified — first fill stores the report price unrounded, each later fill
stores `round6` of the exact one-step weighted update, and each rounding is
within 5e-7 of that exact update; with the intermediate rounding removed the
recurrence computes exactly the quantity-weighted mean of the report prices
(so the stored average is within 5e-7 per rounded step of it, but the
cumulative deviation is not bounded by 1e-6 in general); the worked example —
fills of 5@100 and 5@102 on a 10-share order — yields exactly
avg_price = 101.0, filled_qty = 10, leaves_qty = 0. -/
theorem c3_avg_price_recurrence :
    (∀ (o : Order) (er : ExecIn) (now : ℕ), o.avg_price = none →
        (applyExec o er now).avg_price = some er.price)
      ∧ (∀ (o : Order) (er : ExecIn) (now : ℕ) (a : ℚ), o.avg_price = some a →
          (applyExec o er now).avg_price
            = some (round6 ((a * (o.filled_qty : ℚ) + er.price * (er.qty : ℚ))
                / ((o.filled_qty : ℚ) + (er.qty : ℚ)))))
      ∧ (∀ x : ℚ, |round6 x - x| ≤ 1/2000000)
      ∧ (∀ ers : List ExecIn, ers ≠ [] → (∀ er ∈ ers, 0 < er.qty) →
          (ers.foldl execAvgExactStep (none, 0)).1
            = some ((ers.map fun er => er.price * (er.qty : ℚ)).sum
                / (ers.map fun er => (er.qty : ℚ)).sum))
      ∧ (applyExecs o10 [fill5at100, fill5at102] 1).avg_price = some 101
      ∧ (applyExecs o10 [fill5at100, fill5at102] 1).filled_qty = 10
      ∧ (applyExecs o10 [fill5at100, fill5at102] 1).leaves_qty = 0 := by
  refine ⟨?_, ?_, round6_close, ?_, ?_, by decide, by decide⟩
  · intro o er now h
    simp [applyExec, h]
  · intro o er now a h
    simp only [applyExec, h]
    congr 2
    push_cast
    ring
  · intro ers hne hq
    obtain ⟨er, rest, rfl⟩ := List.exists_cons_of_ne_nil hne
    have hq0 : ((er.qty : ℤ) : ℚ) ≠ 0 := by
      have := hq er (by simp)
      exact_mod_cast this.ne'
    have hfirst : execAvgExactStep (none, 0) er = (some er.price, er.qty) := by
      simp [execAvgExactStep]
    have hprice : er.price = (er.price * (er.qty : ℚ)) / ((er.qty : ℤ) : ℚ) := by
      rw [mul_div_cancel_right₀ _ hq0]
    rw [List.foldl_cons, hfirst]
    rw [show (some er.price, er.qty)
        = (some ((er.price * (er.qty : ℚ)) / ((er.qty : ℤ) : ℚ)), er.qty) by
      rw [← hprice]]
    rw [execAvgExact_fold rest (er.price * (er.qty : ℚ)) er.qty (hq er (by simp))
      (fun e he => hq e (by simp [he]))]
    simp only [List.map_cons, List.sum_cons]
  · with_unfolding_all decide

/-- C3 (witness): the first fill stores the report price, and `round6` is
within 5e-7 at 101. -/
theorem c3_avg_price_recurrence_witness :
    (applyExec o10 fill5at100 1).avg_price = some fill5at100.price
      ∧ |round6 (101 : ℚ) - 101| ≤ 1/2000000
      ∧ (applyExecs o10 [fill5at100, fill5at102] 1).avg_price = some 101 := by
  have h := c3_avg_price_recurrence
  exact ⟨h.1 o10 fill5at100 1 rfl, h.2.2.1 101, h.2.2.2.2.1⟩

end Broker
